import Mathlib

/-!
Verification of the notification identity and validation subsystem of
`kcidb/misc.py`.

Python strings are modelled as lists of Unicode code points (`PyStr`);
Python `bytes` objects as lists of naturals below 256. The base64 codec
(`base64.b64encode`/`b64decode` with `altchars` `+-`), the UTF-8
encoder/decoder implicit in `str.encode()`/`bytes.decode()`, the
Firestore-id validator, and the `NotificationMessage`/`Notification`
constructors are translated from the source; fallible operations return
`Option`/`Except`.
-/

namespace Kcidb

/-- A Python string: a list of Unicode code points. -/
abbrev PyStr := List Nat

/-- Convert a Lean string literal to the code-point-list model. -/
def ofStr (s : String) : PyStr := s.data.map Char.toNat

/-- A code point is a Unicode scalar value: below 0x110000 and not a
surrogate (0xD800-0xDFFF). `str.encode()` succeeds exactly on strings of
scalar values. -/
def isScalar (n : Nat) : Bool := n < 1114112 && !(55296 ≤ n && n ≤ 57343)

/-- UTF-8 encoding of a single scalar value. -/
def utf8EncodeChar (n : Nat) : List Nat :=
  if n < 128 then [n]
  else if n < 2048 then [192 + n / 64, 128 + n % 64]
  else if n < 65536 then [224 + n / 4096, 128 + n / 64 % 64, 128 + n % 64]
  else [240 + n / 262144, 128 + n / 4096 % 64, 128 + n / 64 % 64, 128 + n % 64]

/-- `str.encode()`: UTF-8 encode a Python string, failing (UnicodeEncodeError)
on non-scalar code points. -/
def utf8EncodeOpt : PyStr → Option (List Nat)
  | [] => some []
  | c :: rest =>
    if isScalar c then (utf8EncodeOpt rest).map (fun bs => utf8EncodeChar c ++ bs)
    else Option.none

/-- A UTF-8 continuation byte. -/
def isCont (b : Nat) : Bool := 128 ≤ b && b ≤ 191

/-- Decode one UTF-8 sequence whose lead byte is `b` and whose following
bytes start `rest`: the scalar value and the unconsumed remainder. Strict:
rejects malformed leads, truncated sequences, overlong forms, surrogates and
out-of-range values. -/
def utf8DecodeOne (b : Nat) (rest : List Nat) : Option (Nat × List Nat) :=
  if b < 128 then some (b, rest)
  else if b < 194 then Option.none
  else if b < 224 then
    match rest with
    | b2 :: rest2 =>
      if isCont b2 then some ((b - 192) * 64 + (b2 - 128), rest2)
      else Option.none
    | [] => Option.none
  else if b < 240 then
    match rest with
    | b2 :: b3 :: rest2 =>
      if isCont b2 && isCont b3 then
        if 2048 ≤ (b - 224) * 4096 + (b2 - 128) * 64 + (b3 - 128) &&
            isScalar ((b - 224) * 4096 + (b2 - 128) * 64 + (b3 - 128)) then
          some ((b - 224) * 4096 + (b2 - 128) * 64 + (b3 - 128), rest2)
        else Option.none
      else Option.none
    | _ => Option.none
  else if b < 245 then
    match rest with
    | b2 :: b3 :: b4 :: rest2 =>
      if isCont b2 && isCont b3 && isCont b4 then
        if 65536 ≤ (b - 240) * 262144 + (b2 - 128) * 4096 + (b3 - 128) * 64
              + (b4 - 128) &&
            (b - 240) * 262144 + (b2 - 128) * 4096 + (b3 - 128) * 64
              + (b4 - 128) < 1114112 then
          some ((b - 240) * 262144 + (b2 - 128) * 4096 + (b3 - 128) * 64
            + (b4 - 128), rest2)
        else Option.none
      else Option.none
    | _ => Option.none
  else Option.none

set_option maxRecDepth 2048 in
/-- The remainder returned by `utf8DecodeOne` is a suffix of its input. -/
theorem utf8DecodeOne_length (b : Nat) (rest : List Nat) (n : Nat)
    (rest2 : List Nat) (h : utf8DecodeOne b rest = some (n, rest2)) :
    rest2.length ≤ rest.length := by
  rw [utf8DecodeOne.eq_def] at h
  repeat' split at h
  all_goals
    first
      | (simp only [Option.some.injEq, Prod.mk.injEq] at h
         simp_all only [List.length_cons]
         omega)
      | simp at h

/-- `bytes.decode()`: strict UTF-8 decoding of a byte list. -/
def utf8DecodeOpt : List Nat → Option PyStr
  | [] => some []
  | b :: rest =>
    match h : utf8DecodeOne b rest with
    | some (n, rest2) => (utf8DecodeOpt rest2).map (fun s => n :: s)
    | Option.none => Option.none
termination_by l => l.length
decreasing_by
  simp only [List.length_cons]
  exact Nat.lt_succ_of_le (utf8DecodeOne_length _ _ _ _ h)

/-- The base64 alphabet with `altchars=b'+-'`: sextet value to character code
(`+` stays `+` = 43, `/` becomes `-` = 45). -/
def b64EncNat (v : Nat) : Nat :=
  if v < 26 then 65 + v
  else if v < 52 then 71 + v
  else if v < 62 then v - 4
  else if v = 62 then 43
  else 45

/-- Inverse of `b64EncNat`; `Option.none` on characters outside the alphabet
(`validate=True` semantics). -/
def b64DecNat (c : Nat) : Option Nat :=
  if 65 ≤ c ∧ c ≤ 90 then some (c - 65)
  else if 97 ≤ c ∧ c ≤ 122 then some (c - 71)
  else if 48 ≤ c ∧ c ≤ 57 then some (c + 4)
  else if c = 43 then some 62
  else if c = 45 then some 63
  else Option.none

/-- `base64.b64encode(bytes, altchars=b'+-')`: encode a byte list to the
list of character codes of its base64 form, `=`-padded. -/
def b64Encode : List Nat → List Nat
  | [] => []
  | [a] => [b64EncNat (a / 4), b64EncNat (a % 4 * 16), 61, 61]
  | [a, b] => [b64EncNat (a / 4), b64EncNat (a % 4 * 16 + b / 16),
               b64EncNat (b % 16 * 4), 61]
  | a :: b :: c :: rest =>
    b64EncNat (a / 4) :: b64EncNat (a % 4 * 16 + b / 16) ::
    b64EncNat (b % 16 * 4 + c / 64) :: b64EncNat (c % 64) :: b64Encode rest

/-- `base64.b64decode(chars, altchars=b'+-', validate=True)`: strict decode,
rejecting non-alphabet characters, bad lengths and misplaced padding. -/
def b64Decode : List Nat → Option (List Nat)
  | [] => some []
  | c1 :: c2 :: c3 :: c4 :: rest =>
    match b64DecNat c1, b64DecNat c2 with
    | some v1, some v2 =>
      if c3 = 61 then
        if c4 = 61 ∧ rest = [] then some [v1 * 4 + v2 / 16] else Option.none
      else
        match b64DecNat c3 with
        | some v3 =>
          if c4 = 61 then
            if rest = [] then some [v1 * 4 + v2 / 16, v2 % 16 * 16 + v3 / 4]
            else Option.none
          else
            match b64DecNat c4 with
            | some v4 =>
              (b64Decode rest).map
                (fun r => (v1 * 4 + v2 / 16) :: (v2 % 16 * 16 + v3 / 4) ::
                          (v3 % 4 * 64 + v4) :: r)
            | Option.none => Option.none
        | Option.none => Option.none
    | _, _ => Option.none
  | _ => Option.none

/-- `Notification._to_id_part`: UTF-8 encode then base64-encode with the
`+-` alternative characters; the result's ASCII bytes read back as a string.
`Option.none` models a propagated UnicodeEncodeError. -/
def toIdPart (s : PyStr) : Option PyStr := (utf8EncodeOpt s).map b64Encode

/-- `Notification._from_id_part`: strict base64 decode then UTF-8 decode.
`Option.none` models a propagated decode error. -/
def fromIdPart (t : PyStr) : Option PyStr := (b64Decode t).bind utf8DecodeOpt

/-! ### Base64 round trip -/

/-- Decoding inverts encoding on sextet values. -/
theorem b64DecNat_encNat : ∀ v, v < 64 → b64DecNat (b64EncNat v) = some v := by
  decide

/-- No sextet encodes to the padding character. -/
theorem b64EncNat_ne_pad (v : Nat) : b64EncNat v ≠ 61 := by
  unfold b64EncNat
  split
  · omega
  · split
    · omega
    · split
      · omega
      · split <;> omega

/-- Decoding a base64 encoding of a byte list recovers the bytes. -/
theorem b64Decode_encode (bs : List Nat) (h : ∀ x ∈ bs, x < 256) :
    b64Decode (b64Encode bs) = some bs := by
  match bs with
  | [] => rfl
  | [a] =>
    have ha : a < 256 := h a (by simp)
    rw [b64Encode, b64Decode]
    rw [b64DecNat_encNat _ (by omega), b64DecNat_encNat _ (by omega)]
    simp only [b64EncNat_ne_pad, if_false, reduceIte, and_self, if_true,
               Option.some.injEq, List.cons.injEq, and_true]
    omega
  | [a, b] =>
    have ha : a < 256 := h a (by simp)
    have hb : b < 256 := h b (by simp)
    rw [b64Encode, b64Decode]
    rw [b64DecNat_encNat _ (by omega), b64DecNat_encNat _ (by omega),
        b64DecNat_encNat _ (by omega)]
    simp only [b64EncNat_ne_pad, if_false, reduceIte, and_self, if_true,
               Option.some.injEq, List.cons.injEq, and_true]
    omega
  | a :: b :: c :: rest =>
    have ha : a < 256 := h a (by simp)
    have hb : b < 256 := h b (by simp)
    have hc : c < 256 := h c (by simp)
    have ih := b64Decode_encode rest (fun x hx => h x (by simp [hx]))
    rw [b64Encode, b64Decode]
    rw [b64DecNat_encNat _ (by omega), b64DecNat_encNat _ (by omega),
        b64DecNat_encNat _ (by omega), b64DecNat_encNat _ (by omega)]
    simp only [b64EncNat_ne_pad, if_false, reduceIte, ih, Option.map_some,
               Option.map_some', Option.some.injEq, List.cons.injEq, and_true]
    omega

/-! ### UTF-8 round trip -/

/-- Unfolding of the scalar-value test. -/
theorem isScalar_iff (n : Nat) :
    isScalar n = true ↔ n < 1114112 ∧ ¬(55296 ≤ n ∧ n ≤ 57343) := by
  simp only [isScalar, Bool.and_eq_true, decide_eq_true_eq, Bool.not_eq_true',
    Bool.and_eq_false_iff, decide_eq_false_iff_not]
  omega

/-- One decoding step on a known single-sequence decomposition. -/
theorem utf8DecodeOpt_cons_of (b : Nat) (rest l : List Nat) (c : Nat)
    (hone : utf8DecodeOne b rest = some (c, l)) :
    utf8DecodeOpt (b :: rest) = (utf8DecodeOpt l).map (fun s => c :: s) := by
  rw [utf8DecodeOpt]
  split
  · rename_i n rest2 heq
    rw [hone] at heq
    simp only [Option.some.injEq, Prod.mk.injEq] at heq
    rcases heq with ⟨h1, h2⟩
    rw [h1, h2]
  · rename_i heq
    rw [hone] at heq
    simp at heq

set_option maxRecDepth 4096 in
/-- Decoding one encoded scalar in front of a byte stream peels it off. -/
theorem utf8DecodeOpt_encodeChar (c : Nat) (h : isScalar c = true) (l : List Nat) :
    utf8DecodeOpt (utf8EncodeChar c ++ l) =
      (utf8DecodeOpt l).map (fun s => c :: s) := by
  have h2 := (isScalar_iff c).mp h
  rcases Nat.lt_or_ge c 128 with hc | hc
  · rw [utf8EncodeChar, if_pos hc]
    simp only [List.cons_append, List.nil_append]
    refine utf8DecodeOpt_cons_of _ _ _ _ ?_
    rw [utf8DecodeOne.eq_def]
    rw [if_pos hc]
  · rcases Nat.lt_or_ge c 2048 with hc2 | hc2
    · rw [utf8EncodeChar, if_neg (by omega), if_pos hc2]
      simp only [List.cons_append, List.nil_append]
      refine utf8DecodeOpt_cons_of _ _ _ _ ?_
      rw [utf8DecodeOne.eq_def]
      rw [if_neg (by omega), if_neg (by omega), if_pos (by omega)]
      simp only []
      rw [if_pos (show isCont (128 + c % 64) = true by simp [isCont]; omega)]
      have hn : (192 + c / 64 - 192) * 64 + (128 + c % 64 - 128) = c := by omega
      rw [hn]
    · rcases Nat.lt_or_ge c 65536 with hc3 | hc3
      · rw [utf8EncodeChar, if_neg (by omega), if_neg (by omega), if_pos hc3]
        simp only [List.cons_append, List.nil_append]
        refine utf8DecodeOpt_cons_of _ _ _ _ ?_
        rw [utf8DecodeOne.eq_def]
        rw [if_neg (by omega), if_neg (by omega), if_neg (by omega),
            if_pos (by omega)]
        simp only []
        rw [if_pos (show (isCont (128 + c / 64 % 64) && isCont (128 + c % 64))
              = true by simp [isCont]; omega)]
        have hn : (224 + c / 4096 - 224) * 4096 + (128 + c / 64 % 64 - 128) * 64
            + (128 + c % 64 - 128) = c := by omega
        have hcond : (2048 ≤ (224 + c / 4096 - 224) * 4096
            + (128 + c / 64 % 64 - 128) * 64 + (128 + c % 64 - 128) &&
            isScalar ((224 + c / 4096 - 224) * 4096
              + (128 + c / 64 % 64 - 128) * 64 + (128 + c % 64 - 128))) = true := by
          rw [hn]
          simp only [h, Bool.and_true, decide_eq_true_eq]
          omega
        rw [if_pos hcond]
        rw [hn]
      · rw [utf8EncodeChar, if_neg (by omega), if_neg (by omega),
            if_neg (by omega)]
        simp only [List.cons_append, List.nil_append]
        refine utf8DecodeOpt_cons_of _ _ _ _ ?_
        rw [utf8DecodeOne.eq_def]
        rw [if_neg (by omega), if_neg (by omega), if_neg (by omega),
            if_neg (by omega), if_pos (by omega)]
        simp only []
        rw [if_pos (show (isCont (128 + c / 4096 % 64) && isCont (128 + c / 64 % 64)
              && isCont (128 + c % 64)) = true by simp [isCont]; omega)]
        have hn : (240 + c / 262144 - 240) * 262144 + (128 + c / 4096 % 64 - 128)
            * 4096 + (128 + c / 64 % 64 - 128) * 64 + (128 + c % 64 - 128) = c := by
          omega
        have hcond : (65536 ≤ (240 + c / 262144 - 240) * 262144
            + (128 + c / 4096 % 64 - 128) * 4096 + (128 + c / 64 % 64 - 128) * 64
            + (128 + c % 64 - 128) &&
            (240 + c / 262144 - 240) * 262144 + (128 + c / 4096 % 64 - 128) * 4096
            + (128 + c / 64 % 64 - 128) * 64 + (128 + c % 64 - 128)
              < 1114112) = true := by
          rw [hn]
          simp only [Bool.and_eq_true, decide_eq_true_eq]
          omega
        rw [if_pos hcond]
        rw [hn]

/-- Decoding the UTF-8 encoding of a string of scalar values recovers it. -/
theorem utf8DecodeOpt_encodeOpt (s : PyStr) (bs : List Nat)
    (h : utf8EncodeOpt s = some bs) : utf8DecodeOpt bs = some s := by
  induction s generalizing bs with
  | nil =>
    rw [utf8EncodeOpt] at h
    simp only [Option.some.injEq] at h
    subst h
    rw [utf8DecodeOpt]
  | cons c rest ih =>
    rw [utf8EncodeOpt] at h
    by_cases hs : isScalar c = true
    · rw [if_pos hs] at h
      cases hrest : utf8EncodeOpt rest with
      | none => rw [hrest] at h; simp at h
      | some bs2 =>
        rw [hrest] at h
        simp only [Option.map_some', Option.some.injEq] at h
        subst h
        rw [utf8DecodeOpt_encodeChar c hs, ih bs2 hrest]
        rfl
    · rw [if_neg hs] at h
      simp at h

/-- Every byte of an encoded scalar is below 256. -/
theorem utf8EncodeChar_lt (c : Nat) (h : isScalar c = true) :
    ∀ x ∈ utf8EncodeChar c, x < 256 := by
  have h2 := (isScalar_iff c).mp h
  intro x hx
  rw [utf8EncodeChar] at hx
  rcases Nat.lt_or_ge c 128 with hc | hc
  · rw [if_pos hc] at hx; simp at hx; omega
  · rw [if_neg (by omega)] at hx
    rcases Nat.lt_or_ge c 2048 with hc2 | hc2
    · rw [if_pos hc2] at hx; simp at hx; omega
    · rw [if_neg (by omega)] at hx
      rcases Nat.lt_or_ge c 65536 with hc3 | hc3
      · rw [if_pos hc3] at hx; simp at hx; omega
      · rw [if_neg (by omega)] at hx; simp at hx; omega

/-- Every byte of an encoded string is below 256. -/
theorem utf8EncodeOpt_lt (s : PyStr) (bs : List Nat)
    (h : utf8EncodeOpt s = some bs) : ∀ x ∈ bs, x < 256 := by
  induction s generalizing bs with
  | nil =>
    rw [utf8EncodeOpt] at h
    simp only [Option.some.injEq] at h
    subst h
    simp
  | cons c rest ih =>
    rw [utf8EncodeOpt] at h
    by_cases hs : isScalar c = true
    · rw [if_pos hs] at h
      cases hrest : utf8EncodeOpt rest with
      | none => rw [hrest] at h; simp at h
      | some bs2 =>
        rw [hrest] at h
        simp only [Option.map_some', Option.some.injEq] at h
        subst h
        intro x hx
        rcases List.mem_append.mp hx with hx | hx
        · exact utf8EncodeChar_lt c hs x hx
        · exact ih bs2 hrest x hx
    · rw [if_neg hs] at h
      simp at h

/-- Round trip of the notification id-part codec: decoding an encoded part
recovers the original string. -/
theorem fromIdPart_toIdPart (s t : PyStr) (h : toIdPart s = some t) :
    fromIdPart t = some s := by
  rw [toIdPart] at h
  cases he : utf8EncodeOpt s with
  | none => rw [he] at h; simp at h
  | some bs =>
    rw [he] at h
    simp only [Option.map_some', Option.some.injEq] at h
    subst h
    rw [fromIdPart, b64Decode_encode bs (utf8EncodeOpt_lt s bs he)]
    simpa using utf8DecodeOpt_encodeOpt s bs he

/-! ### Values, validators and constructors -/

/-- A Python value, as far as the constructors inspect one: a string, a
list, or a non-string scalar such as an int or None. -/
inductive PyVal where
  | str (s : PyStr)
  | list (l : List PyVal)
  | int (n : Int)
  | noneVal

/-- `NOTIFICATION_MESSAGE_SUMMARY_RE.fullmatch`: the full string matches
`[^\x00-\x1f\x7f]*`, i.e. no code point is in 0x00-0x1F or equal to 0x7F. -/
def summaryFullmatch (s : PyStr) : Bool := s.all (fun c => !(c ≤ 31 || c == 127))

/-- A latin letter or digit. -/
def isAlnumLatin (c : Nat) : Bool :=
  (48 ≤ c && c ≤ 57) || (65 ≤ c && c ≤ 90) || (97 ≤ c && c ≤ 122)

/-- A latin letter, digit or underscore. -/
def isAlnumU (c : Nat) : Bool := isAlnumLatin c || c == 95

/-- `SUBSCRIPTION_RE.fullmatch`: the full string matches
`([A-Za-z0-9][A-Za-z0-9_]*)?` — empty, or an alphanumeric head followed by
alphanumerics/underscores. -/
def subscriptionFullmatch : PyStr → Bool
  | [] => true
  | c :: rest => isAlnumLatin c && rest.all isAlnumU

/-- `is_valid_firestore_id`: a string whose UTF-8 form is at most 1500
bytes, is not "." or "..", contains no "/", and does not both start and end
with "__"; non-strings and strings that fail to UTF-8-encode give False
(the UnicodeError is caught). -/
def is_valid_firestore_id (value : PyVal) : Bool :=
  match value with
  | PyVal.str s =>
    match utf8EncodeOpt s with
    | some bs =>
      decide (bs.length ≤ 1500) &&
      decide (s ≠ ofStr ".") &&
      decide (s ≠ ofStr "..") &&
      !(s.contains 47) &&
      !(List.isPrefixOf (ofStr "__") s && List.isSuffixOf (ofStr "__") s)
    | Option.none => false
  | _ => false

/-- The assert (validation check) that fired, by validated property. -/
inductive Check where
  | recipientsIsList
  | recipientsAllStr
  | summaryIsStr
  | summaryRe
  | summaryLe256
  | descriptionIsStr
  | idLe4096
  | idLe256
  | objListNameTruthy
  | objListNameInTree
  | subscriptionRe
  | subscriptionLe64
  | idFirestoreValid
deriving DecidableEq

/-- Python exceptions the constructors can raise: a failed `assert`, an
`AttributeError` (calling `.encode()` on a non-string), or a
`UnicodeEncodeError` (encoding a string with surrogates). -/
inductive PyErr where
  | assertionError (c : Check)
  | attributeError
  | unicodeEncodeError
deriving DecidableEq

/-- `all(isinstance(r, str) for r in recipients)`, projecting the strings. -/
def getStrs : List PyVal → Option (List PyStr)
  | [] => some []
  | PyVal.str s :: rest => (getStrs rest).map (fun l => s :: l)
  | _ => Option.none

/-- The `NotificationMessage` value object. -/
structure NotificationMessage where
  recipients : List PyStr
  summary : PyStr
  description : PyStr
  id : PyStr
deriving DecidableEq

/-- `NotificationMessage.__init__`, with its asserts in source order:
recipients is a list; all recipients are strings; summary is a string;
summary fullmatches the summary regex; summary encodes to at most 256
bytes; description is a string; `len(id.encode()) <= 4096` (note: evaluated
before `isinstance(id, str)`, so a non-string id raises AttributeError
here); id is a string; id encodes to at most 256 bytes. -/
def mkNotificationMessage (recipients : PyVal) (summary : PyVal)
    (description : PyVal) (id : PyVal) : Except PyErr NotificationMessage :=
  match recipients with
  | PyVal.list rl =>
    match getStrs rl with
    | some rs =>
      match summary with
      | PyVal.str sm =>
        if summaryFullmatch sm then
          match utf8EncodeOpt sm with
          | some smb =>
            if smb.length ≤ 256 then
              match description with
              | PyVal.str d =>
                match id with
                | PyVal.str i =>
                  match utf8EncodeOpt i with
                  | some ib =>
                    if ib.length ≤ 4096 then
                      if ib.length ≤ 256 then
                        Except.ok ⟨rs, sm, d, i⟩
                      else Except.error (PyErr.assertionError Check.idLe256)
                    else Except.error (PyErr.assertionError Check.idLe4096)
                  | Option.none => Except.error PyErr.unicodeEncodeError
                | _ => Except.error PyErr.attributeError
              | _ => Except.error (PyErr.assertionError Check.descriptionIsStr)
            else Except.error (PyErr.assertionError Check.summaryLe256)
          | Option.none => Except.error PyErr.unicodeEncodeError
        else Except.error (PyErr.assertionError Check.summaryRe)
      | _ => Except.error (PyErr.assertionError Check.summaryIsStr)
    | Option.none => Except.error (PyErr.assertionError Check.recipientsAllStr)
  | _ => Except.error (PyErr.assertionError Check.recipientsIsList)

/-- Calling `NotificationMessage(recipients)` with the declared parameter
defaults `summary=""`, `description=""`, `id=""`. -/
def mkNotificationMessageDefaults (recipients : PyVal) :
    Except PyErr NotificationMessage :=
  mkNotificationMessage recipients (PyVal.str []) (PyVal.str []) (PyVal.str [])

/-- Modelled from the spec: `kcidb.oo.Node` is not under `src/`; per §3/§6
a domain node exposes `id` (a string) and `summarize()`/`describe()` string
projections, modelled here as fields holding those outputs. -/
structure Node where
  id : PyStr
  summarizeOut : PyStr
  describeOut : PyStr
deriving DecidableEq

/-- Modelled from the spec: `kcidb.io.schema.LATEST.tree` is not under
`src/`; per §6 the registry is only used for membership tests on top-level
collection names, and §2/§8 name "revisions" and "builds" as members. -/
def schemaTreeNames : List PyStr := [ofStr "revisions", ofStr "builds"]

/-- The `Notification` entity. -/
structure Notification where
  obj_list_name : PyStr
  obj : Node
  subscription : PyStr
  message : NotificationMessage
  id : PyStr
deriving DecidableEq

/-- The composite id expression of `Notification.__init__`:
`subscription + ":" + obj_list_name + ":" + part1 + ":" + part2`. -/
def compositeId (subscription obj_list_name p1 p2 : PyStr) : PyStr :=
  subscription ++ [58] ++ obj_list_name ++ [58] ++ p1 ++ [58] ++ p2

/-- `Notification.__init__`, with its asserts in source order:
obj_list_name is a (non-empty) string present in the schema tree; obj is a
Node (by typing); subscription is a string that fullmatches the
subscription regex and encodes to at most 64 bytes; message is a
NotificationMessage (by typing); then the composite id is derived and
asserted to be a valid Firestore id. -/
def mkNotification (obj_list_name : PyStr) (obj : Node) (subscription : PyStr)
    (message : NotificationMessage) : Except PyErr Notification :=
  if obj_list_name = [] then
    Except.error (PyErr.assertionError Check.objListNameTruthy)
  else if obj_list_name ∈ schemaTreeNames then
    if subscriptionFullmatch subscription then
      match utf8EncodeOpt subscription with
      | some sb =>
        if sb.length ≤ 64 then
          match toIdPart obj.id with
          | some p1 =>
            match toIdPart message.id with
            | some p2 =>
              if is_valid_firestore_id
                  (PyVal.str (compositeId subscription obj_list_name p1 p2)) then
                Except.ok ⟨obj_list_name, obj, subscription, message,
                  compositeId subscription obj_list_name p1 p2⟩
              else Except.error (PyErr.assertionError Check.idFirestoreValid)
            | Option.none => Except.error PyErr.unicodeEncodeError
          | Option.none => Except.error PyErr.unicodeEncodeError
        else Except.error (PyErr.assertionError Check.subscriptionLe64)
      | Option.none => Except.error PyErr.unicodeEncodeError
    else Except.error (PyErr.assertionError Check.subscriptionRe)
  else Except.error (PyErr.assertionError Check.objListNameInTree)

/-- `email.message.EmailMessage`, as far as `render` uses it: ordered
headers and a body. -/
structure EmailMessage where
  headers : List (PyStr × PyStr)
  content : PyStr
deriving DecidableEq

/-- `email[name] = value`: append a header. -/
def setHeader (e : EmailMessage) (name value : PyStr) : EmailMessage :=
  ⟨e.headers ++ [(name, value)], e.content⟩

/-- `email.set_content(body)`. -/
def setContent (e : EmailMessage) (c : PyStr) : EmailMessage :=
  ⟨e.headers, c⟩

/-- Look a header up by name. -/
def getHeader (e : EmailMessage) (name : PyStr) : Option PyStr :=
  (e.headers.find? (fun p => decide (p.1 = name))).map (fun p => p.2)

/-- `", ".join(recipients)`. -/
def joinComma : List PyStr → PyStr
  | [] => []
  | [x] => x
  | x :: xs => x ++ [44, 32] ++ joinComma xs

/-- `Notification.render`: build the e-mail message envelope. -/
def render (n : Notification) : EmailMessage :=
  let e0 : EmailMessage := ⟨[], []⟩
  let e1 := setHeader e0 (ofStr "Subject") (n.message.summary ++ n.obj.summarizeOut)
  let e2 := setHeader e1 (ofStr "To") (joinComma n.message.recipients)
  let e3 := setHeader e2 (ofStr "X-KCIDB-Notification-ID") n.id
  let e4 := setHeader e3 (ofStr "X-KCIDB-Notification-Message-ID") n.message.id
  setContent e4 (n.message.description ++ n.obj.describeOut)

/-! ### Helper lemmas -/

/-- Projecting a list of wrapped strings succeeds and is the identity. -/
theorem getStrs_map_str (rs : List PyStr) : getStrs (rs.map PyVal.str) = some rs := by
  induction rs with
  | nil => rfl
  | cons r rest ih =>
    rw [List.map_cons, getStrs, ih]
    rfl

/-- An ASCII code point is a scalar value. -/
theorem isScalar_of_ascii (c : Nat) (h : c < 128) : isScalar c = true := by
  rw [isScalar_iff]
  omega

/-- UTF-8 encoding is the identity on ASCII strings. -/
theorem utf8EncodeOpt_ascii (s : PyStr) (h : ∀ c ∈ s, c < 128) :
    utf8EncodeOpt s = some s := by
  induction s with
  | nil => rfl
  | cons c rest ih =>
    have hc : c < 128 := h c (by simp)
    rw [utf8EncodeOpt, if_pos (isScalar_of_ascii c hc),
        ih (fun x hx => h x (by simp [hx]))]
    rw [utf8EncodeChar, if_pos hc]
    rfl

/-- The base64 encoding of `n` bytes has `4 * ⌈n / 3⌉` characters. -/
theorem b64Encode_length (bs : List Nat) :
    (b64Encode bs).length = 4 * ((bs.length + 2) / 3) := by
  match bs with
  | [] => rfl
  | [a] =>
    rw [b64Encode]
    simp only [List.length_cons, List.length_nil]
  | [a, b] =>
    rw [b64Encode]
    simp only [List.length_cons, List.length_nil]
  | a :: b :: c :: rest =>
    have ih := b64Encode_length rest
    rw [b64Encode]
    simp only [List.length_cons, ih]
    omega

/-- Every base64 alphabet character is ASCII and is none of `/`, `:`, `_`. -/
theorem b64EncNat_props (v : Nat) :
    b64EncNat v < 128 ∧ b64EncNat v ≠ 47 ∧ b64EncNat v ≠ 58 ∧ b64EncNat v ≠ 95 := by
  unfold b64EncNat
  repeat' split
  all_goals omega

/-- Every character of a base64 encoding is ASCII and none of `/`, `:`, `_`. -/
theorem b64Encode_mem (bs : List Nat) :
    ∀ x ∈ b64Encode bs, x < 128 ∧ x ≠ 47 ∧ x ≠ 58 ∧ x ≠ 95 := by
  match bs with
  | [] => simp [b64Encode]
  | [a] =>
    intro x hx
    rw [b64Encode] at hx
    simp only [List.mem_cons, List.not_mem_nil, or_false] at hx
    rcases hx with h | h | h | h <;> subst h
    · exact b64EncNat_props _
    · exact b64EncNat_props _
    · omega
    · omega
  | [a, b] =>
    intro x hx
    rw [b64Encode] at hx
    simp only [List.mem_cons, List.not_mem_nil, or_false] at hx
    rcases hx with h | h | h | h <;> subst h
    · exact b64EncNat_props _
    · exact b64EncNat_props _
    · exact b64EncNat_props _
    · omega
  | a :: b :: c :: rest =>
    intro x hx
    rw [b64Encode] at hx
    simp only [List.mem_cons] at hx
    rcases hx with h | h | h | h | h
    · subst h; exact b64EncNat_props _
    · subst h; exact b64EncNat_props _
    · subst h; exact b64EncNat_props _
    · subst h; exact b64EncNat_props _
    · exact b64Encode_mem rest x h

/-- A subscription-regex character is ASCII and is neither `/` nor `:`. -/
theorem isAlnumU_props (c : Nat) (h : isAlnumU c = true) :
    c < 128 ∧ c ≠ 47 ∧ c ≠ 58 := by
  simp only [isAlnumU, isAlnumLatin, Bool.or_eq_true, Bool.and_eq_true,
    decide_eq_true_eq, beq_iff_eq] at h
  omega

/-- Characters of a string matching the subscription regex are ASCII and
are neither `/` nor `:`. -/
theorem subscriptionFullmatch_mem (s : PyStr) (h : subscriptionFullmatch s = true) :
    ∀ c ∈ s, c < 128 ∧ c ≠ 47 ∧ c ≠ 58 := by
  match s with
  | [] => simp
  | c :: rest =>
    rw [subscriptionFullmatch] at h
    simp only [Bool.and_eq_true, List.all_eq_true] at h
    intro x hx
    rcases List.mem_cons.mp hx with hx | hx
    · subst hx
      exact isAlnumU_props x (by simp [isAlnumU, h.1])
    · exact isAlnumU_props x (h.2 x hx)

/-- The head of a non-empty string matching the subscription regex is a
latin alphanumeric, in particular not `_`. -/
theorem subscriptionFullmatch_head (c : Nat) (rest : PyStr)
    (h : subscriptionFullmatch (c :: rest) = true) : c ≠ 95 := by
  rw [subscriptionFullmatch] at h
  simp only [Bool.and_eq_true] at h
  have := h.1
  simp only [isAlnumLatin, Bool.or_eq_true, Bool.and_eq_true,
    decide_eq_true_eq] at this
  omega

/-- Splitting on a separator absent from both left parts is unambiguous. -/
theorem append_cons_cancel (a1 a2 r1 r2 : List Nat)
    (h1 : (58 : Nat) ∉ a1) (h2 : (58 : Nat) ∉ a2)
    (h : a1 ++ 58 :: r1 = a2 ++ 58 :: r2) : a1 = a2 ∧ r1 = r2 := by
  induction a1 generalizing a2 with
  | nil =>
    cases a2 with
    | nil => simpa using h
    | cons y ys =>
      exfalso
      simp only [List.nil_append, List.cons_append, List.cons.injEq] at h
      exact h2 (by rw [h.1]; exact List.mem_cons_self y ys)
  | cons x xs ih =>
    cases a2 with
    | nil =>
      exfalso
      simp only [List.cons_append, List.nil_append, List.cons.injEq] at h
      exact h1 (by rw [← h.1]; exact List.mem_cons_self x xs)
    | cons y ys =>
      simp only [List.cons_append, List.cons.injEq] at h
      have hxs : (58 : Nat) ∉ xs := fun hm => h1 (List.mem_cons_of_mem x hm)
      have hys : (58 : Nat) ∉ ys := fun hm => h2 (List.mem_cons_of_mem y hm)
      have ht := ih ys hxs hys h.2
      exact ⟨by rw [h.1, ht.1], ht.2⟩

/-- The id-part encoding is injective where defined. -/
theorem toIdPart_inj (s1 s2 p : PyStr) (h1 : toIdPart s1 = some p)
    (h2 : toIdPart s2 = some p) : s1 = s2 := by
  have r1 := fromIdPart_toIdPart s1 p h1
  have r2 := fromIdPart_toIdPart s2 p h2
  rw [r1] at r2
  exact Option.some_injective _ r2

/-- Both schema-tree names are ASCII, colon-free, slash-free strings. -/
theorem schemaTreeNames_mem_chars (oln : PyStr) (hmem : oln ∈ schemaTreeNames) :
    ∀ c ∈ oln, c < 128 ∧ c ≠ 47 ∧ c ≠ 58 := by
  rcases List.mem_pair.mp hmem with h | h <;> subst h <;> decide

/-- Both schema-tree names have at most 9 characters. -/
theorem schemaTreeNames_len (oln : PyStr) (hmem : oln ∈ schemaTreeNames) :
    oln.length ≤ 9 := by
  rcases List.mem_pair.mp hmem with h | h <;> subst h <;> decide

/-- A list with a non-underscore head does not start with `__`. -/
theorem isPrefixOf_uu_false (c : Nat) (t : List Nat) (hc : c ≠ 95) :
    List.isPrefixOf (ofStr "__") (c :: t) = false := by
  show List.isPrefixOf [95, 95] (c :: t) = false
  simp [List.isPrefixOf]
  omega

/-- Sufficient conditions for the composite id to pass the Firestore
validator: subscription matches its regex, the list name is in the schema
tree, both encoded parts use only base64 characters, and the total length
fits in 1500. -/
theorem compositeId_valid (sub oln p1 p2 : PyStr)
    (hsub : subscriptionFullmatch sub = true)
    (hmem : oln ∈ schemaTreeNames)
    (hp1 : ∀ x ∈ p1, x < 128 ∧ x ≠ 47 ∧ x ≠ 58 ∧ x ≠ 95)
    (hp2 : ∀ x ∈ p2, x < 128 ∧ x ≠ 47 ∧ x ≠ 58 ∧ x ≠ 95)
    (hlen : sub.length + oln.length + p1.length + p2.length + 3 ≤ 1500) :
    is_valid_firestore_id (PyVal.str (compositeId sub oln p1 p2)) = true := by
  have hchars : ∀ c ∈ compositeId sub oln p1 p2, c < 128 ∧ c ≠ 47 := by
    intro c hc
    simp only [compositeId, List.append_assoc, List.mem_append,
      List.mem_cons, List.mem_singleton, List.not_mem_nil, or_false] at hc
    rcases hc with hc | hc | hc | hc | hc | hc | hc
    · have := subscriptionFullmatch_mem sub hsub c hc
      exact ⟨this.1, this.2.1⟩
    · subst hc; omega
    · have := schemaTreeNames_mem_chars oln hmem c hc
      exact ⟨this.1, this.2.1⟩
    · subst hc; omega
    · have := hp1 c hc
      exact ⟨this.1, this.2.1⟩
    · subst hc; omega
    · have := hp2 c hc
      exact ⟨this.1, this.2.1⟩
  have henc : utf8EncodeOpt (compositeId sub oln p1 p2) =
      some (compositeId sub oln p1 p2) :=
    utf8EncodeOpt_ascii _ (fun c hc => (hchars c hc).1)
  have hmem58 : (58 : Nat) ∈ compositeId sub oln p1 p2 := by
    simp [compositeId]
  have hle : (compositeId sub oln p1 p2).length ≤ 1500 := by
    simp only [compositeId, List.length_append, List.length_cons,
      List.length_nil]
    omega
  have hdot : compositeId sub oln p1 p2 ≠ ofStr "." := by
    intro he
    rw [he] at hmem58
    simp [ofStr] at hmem58
  have hddot : compositeId sub oln p1 p2 ≠ ofStr ".." := by
    intro he
    rw [he] at hmem58
    simp [ofStr] at hmem58
  have hcont : (compositeId sub oln p1 p2).contains 47 = false := by
    simpa using fun hc => ((hchars 47 hc).2 rfl)
  have hpre : List.isPrefixOf (ofStr "__") (compositeId sub oln p1 p2) = false := by
    match hs : sub with
    | [] =>
      show List.isPrefixOf (ofStr "__") ([] ++ [58] ++ oln ++ [58] ++ p1
        ++ [58] ++ p2) = false
      simp only [List.nil_append, List.append_assoc, List.cons_append]
      exact isPrefixOf_uu_false 58 _ (by omega)
    | c :: rest =>
      show List.isPrefixOf (ofStr "__") ((c :: rest) ++ [58] ++ oln ++ [58] ++ p1
        ++ [58] ++ p2) = false
      simp only [List.cons_append, List.append_assoc]
      exact isPrefixOf_uu_false c _ (subscriptionFullmatch_head c rest (hs ▸ hsub))
  rw [is_valid_firestore_id.eq_def]
  simp only []
  rw [henc]
  simp only [Bool.and_eq_true, decide_eq_true_eq, Bool.not_eq_true']
  refine ⟨⟨⟨⟨hle, hdot⟩, hddot⟩, hcont⟩, ?_⟩
  rw [hpre]
  rfl

/-- Constructing a notification succeeds when every check passes. -/
theorem mkNotification_ok_of (oln : PyStr) (obj : Node) (sub : PyStr)
    (msg : NotificationMessage) (sb p1 p2 : PyStr)
    (hnil : oln ≠ []) (hmem : oln ∈ schemaTreeNames)
    (hsubm : subscriptionFullmatch sub = true)
    (hsb : utf8EncodeOpt sub = some sb) (hsb64 : sb.length ≤ 64)
    (hp1 : toIdPart obj.id = some p1) (hp2 : toIdPart msg.id = some p2)
    (hval : is_valid_firestore_id
      (PyVal.str (compositeId sub oln p1 p2)) = true) :
    mkNotification oln obj sub msg =
      Except.ok ⟨oln, obj, sub, msg, compositeId sub oln p1 p2⟩ := by
  rw [mkNotification, if_neg hnil, if_pos hmem, if_pos hsubm, hsb]
  simp only []
  rw [if_pos hsb64, hp1]
  simp only []
  rw [hp2]
  simp only []
  rw [if_pos hval]

/-- Constructing a notification fails at the final assert when every
earlier check passes but the composite id is not a valid Firestore id. -/
theorem mkNotification_invalid_of (oln : PyStr) (obj : Node) (sub : PyStr)
    (msg : NotificationMessage) (sb p1 p2 : PyStr)
    (hnil : oln ≠ []) (hmem : oln ∈ schemaTreeNames)
    (hsubm : subscriptionFullmatch sub = true)
    (hsb : utf8EncodeOpt sub = some sb) (hsb64 : sb.length ≤ 64)
    (hp1 : toIdPart obj.id = some p1) (hp2 : toIdPart msg.id = some p2)
    (hval : is_valid_firestore_id
      (PyVal.str (compositeId sub oln p1 p2)) = false) :
    mkNotification oln obj sub msg =
      Except.error (PyErr.assertionError Check.idFirestoreValid) := by
  rw [mkNotification, if_neg hnil, if_pos hmem, if_pos hsubm, hsb]
  simp only []
  rw [if_pos hsb64, hp1]
  simp only []
  rw [hp2]
  simp only []
  rw [if_neg (by rw [hval]; exact Bool.false_ne_true)]

/-- Success inversion for `mkNotification`: what a successful construction
tells us about the inputs and the constructed notification. -/
theorem mkNotification_ok_elim (oln : PyStr) (obj : Node) (sub : PyStr)
    (msg : NotificationMessage) (n : Notification)
    (h : mkNotification oln obj sub msg = Except.ok n) :
    oln ∈ schemaTreeNames ∧ subscriptionFullmatch sub = true ∧
    ∃ p1 p2, toIdPart obj.id = some p1 ∧ toIdPart msg.id = some p2 ∧
      n = ⟨oln, obj, sub, msg, compositeId sub oln p1 p2⟩ := by
  rw [mkNotification] at h
  repeat' split at h
  all_goals first
    | simp only [reduceCtorEq] at h
    | (simp only [Except.ok.injEq] at h
       rename_i hnil hmem hsubm xo1 sb hsb hsb64 xo2 p1 hp1 xo3 p2 hp2 hval
       exact ⟨hmem, hsubm, p1, p2, hp1, hp2, h.symm⟩)

/-- Whether a constructor call succeeded. -/
def exOk {A : Type} : Except PyErr A → Bool
  | Except.ok _ => true
  | Except.error _ => false

/-- Strings of scalar values are UTF-8 encodable. -/
theorem utf8EncodeOpt_some_of_scalar (s : PyStr)
    (h : ∀ c ∈ s, isScalar c = true) : ∃ bs, utf8EncodeOpt s = some bs := by
  induction s with
  | nil => exact ⟨[], rfl⟩
  | cons c rest ih =>
    obtain ⟨bs, hbs⟩ := ih (fun x hx => h x (by simp [hx]))
    refine ⟨utf8EncodeChar c ++ bs, ?_⟩
    rw [utf8EncodeOpt, if_pos (h c (by simp)), hbs]
    rfl

/-- Characters of an encoded id part are ASCII and none of `/`, `:`, `_`. -/
theorem toIdPart_mem (s p : PyStr) (h : toIdPart s = some p) :
    ∀ x ∈ p, x < 128 ∧ x ≠ 47 ∧ x ≠ 58 ∧ x ≠ 95 := by
  rw [toIdPart] at h
  cases he : utf8EncodeOpt s with
  | none => rw [he] at h; simp at h
  | some bs =>
    rw [he] at h
    simp only [Option.map_some', Option.some.injEq] at h
    subst h
    exact b64Encode_mem bs

/-- The length of an encoded id part, from the byte count of the string. -/
theorem toIdPart_length (s p : PyStr) (bs : List Nat)
    (he : utf8EncodeOpt s = some bs) (h : toIdPart s = some p) :
    p.length = 4 * ((bs.length + 2) / 3) := by
  rw [toIdPart, he] at h
  simp only [Option.map_some', Option.some.injEq] at h
  subst h
  exact b64Encode_length bs

/-- A successfully constructed message has an id of at most 256 UTF-8
bytes. -/
theorem mkNotificationMessage_ok_id (r sv dv iv : PyVal)
    (m : NotificationMessage)
    (h : mkNotificationMessage r sv dv iv = Except.ok m) :
    ∃ ib, utf8EncodeOpt m.id = some ib ∧ ib.length ≤ 256 := by
  rw [mkNotificationMessage.eq_def] at h
  repeat' split at h
  all_goals first
    | simp only [reduceCtorEq] at h
    | (simp only [Except.ok.injEq] at h
       rename_i rl rs hrs sm hsm smb hsmb hsmb256 d i ib hib hib4096 hib256
       subst h
       exact ⟨ib, hib, hib256⟩)

/-- Decidable equality of constructor results, for concrete evaluation. -/
instance exceptDecEq {E A : Type} [DecidableEq E] [DecidableEq A] :
    DecidableEq (Except E A) := fun x y =>
  match x, y with
  | Except.ok a, Except.ok b =>
    if h : a = b then Decidable.isTrue (by rw [h])
    else Decidable.isFalse (fun he => h (Except.ok.inj he))
  | Except.error a, Except.error b =>
    if h : a = b then Decidable.isTrue (by rw [h])
    else Decidable.isFalse (fun he => h (Except.error.inj he))
  | Except.ok a, Except.error b => Decidable.isFalse (fun he => nomatch he)
  | Except.error a, Except.ok b => Decidable.isFalse (fun he => nomatch he)

/-! ### Claims -/

/-- C2: for every string of Unicode scalar values (exactly the Python
strings whose UTF-8 encoding exists), decoding the encoding returns the
original: `Notification._from_id_part(Notification._to_id_part(s)) == s`. -/
theorem C2_id_part_round_trip (s : PyStr) (h : ∀ c ∈ s, isScalar c = true) :
    (toIdPart s).bind fromIdPart = some s := by
  obtain ⟨bs, hbs⟩ := utf8EncodeOpt_some_of_scalar s h
  have ht : toIdPart s = some (b64Encode bs) := by
    rw [toIdPart, hbs]
    rfl
  rw [ht]
  exact fromIdPart_toIdPart s _ ht

/-- Witness for C2 at the concrete string "build:42". -/
theorem C2_witness :
    (toIdPart (ofStr "build:42")).bind fromIdPart = some (ofStr "build:42") :=
  C2_id_part_round_trip (ofStr "build:42") (by decide)

/-- C10: the summary, description and id parameters default to the empty
string, and with any list of string recipients the defaulted construction
succeeds with summary, description and id all empty. -/
theorem C10_defaults_succeed (rs : List PyStr) :
    mkNotificationMessageDefaults (PyVal.list (rs.map PyVal.str)) =
      Except.ok ⟨rs, [], [], []⟩ := by
  rw [mkNotificationMessageDefaults, mkNotificationMessage.eq_def]
  simp only [getStrs_map_str]
  rfl

/-- C9: `render` is a pure function of the notification; the envelope's
Subject is the message summary concatenated directly with the object's
summarize() output, To is the recipients joined with ", ", the
notification-id header is the notification id, the notification-message-id
header is the message id, the body is the description concatenated directly
with describe(), and no From header is set. -/
theorem C9_render_envelope (n : Notification) :
    getHeader (render n) (ofStr "Subject") =
      some (n.message.summary ++ n.obj.summarizeOut) ∧
    getHeader (render n) (ofStr "To") = some (joinComma n.message.recipients) ∧
    getHeader (render n) (ofStr "X-KCIDB-Notification-ID") = some n.id ∧
    getHeader (render n) (ofStr "X-KCIDB-Notification-Message-ID") =
      some n.message.id ∧
    (render n).content = n.message.description ++ n.obj.describeOut ∧
    getHeader (render n) (ofStr "From") = Option.none :=
  ⟨rfl, rfl, rfl, rfl, rfl, rfl⟩

/-- C5: the Firestore-id validator is total, returns True exactly when the
value is a string that UTF-8-encodes (any encoding error is caught and
yields False) into at most 1500 bytes, is neither "." nor "..", contains
no "/", and does not both start and end with "__"; non-strings give False;
and the spec's edge cases evaluate as stated. -/
theorem C5_is_valid_firestore_id_spec :
    (∀ s : PyStr, is_valid_firestore_id (PyVal.str s) = true ↔
      ((∃ bs, utf8EncodeOpt s = some bs ∧ bs.length ≤ 1500) ∧ s ≠ ofStr "." ∧
        s ≠ ofStr ".." ∧ (47 : Nat) ∉ s ∧
        ¬(List.isPrefixOf (ofStr "__") s = true ∧
          List.isSuffixOf (ofStr "__") s = true))) ∧
    (∀ v : PyVal, (∀ s, v ≠ PyVal.str s) → is_valid_firestore_id v = false) ∧
    is_valid_firestore_id (PyVal.str (ofStr ".")) = false ∧
    is_valid_firestore_id (PyVal.str (ofStr "..")) = false ∧
    is_valid_firestore_id (PyVal.str (ofStr "a/b")) = false ∧
    is_valid_firestore_id (PyVal.str (ofStr "__x__")) = false ∧
    is_valid_firestore_id (PyVal.str (ofStr "normal_id")) = true ∧
    is_valid_firestore_id (PyVal.str (List.replicate 1501 97)) = false := by
  refine ⟨?_, ?_, by decide, by decide, by decide, by decide, by decide, ?_⟩
  · intro s
    rw [is_valid_firestore_id.eq_def]
    simp only []
    cases he : utf8EncodeOpt s with
    | none =>
      simp only [he, Bool.false_eq_true, false_iff]
      rintro ⟨⟨bs, henc, hlen⟩, hrest⟩
      cases henc
    | some bs =>
      simp only [he, Bool.and_eq_true, decide_eq_true_eq, Bool.not_eq_true']
      constructor
      · rintro ⟨⟨⟨⟨h1, h2⟩, h3⟩, h4⟩, h5⟩
        refine ⟨⟨bs, rfl, h1⟩, h2, h3, ?_, ?_⟩
        · simpa using h4
        · rw [Bool.and_eq_false_iff] at h5
          rintro ⟨hp, hq⟩
          rcases h5 with h5 | h5
          · rw [hp] at h5
            cases h5
          · rw [hq] at h5
            cases h5
      · rintro ⟨⟨bs2, henc, hlen⟩, h2, h3, h4, h5⟩
        injection henc with hbs
        subst hbs
        refine ⟨⟨⟨⟨hlen, h2⟩, h3⟩, ?_⟩, ?_⟩
        · simpa using h4
        · rw [Bool.and_eq_false_iff]
          by_cases hp : List.isPrefixOf (ofStr "__") s = true
          · right
            by_cases hq : List.isSuffixOf (ofStr "__") s = true
            · exact absurd ⟨hp, hq⟩ h5
            · exact Bool.eq_false_iff.mpr hq
          · left
            exact Bool.eq_false_iff.mpr hp
  · intro v hv
    cases v with
    | str s => exact absurd rfl (hv s)
    | list l => rfl
    | int n => rfl
    | noneVal => rfl
  · rw [is_valid_firestore_id.eq_def]
    simp only []
    rw [utf8EncodeOpt_ascii _ (fun c hc => by
      rw [List.eq_of_mem_replicate hc]
      omega)]
    simp only [List.length_replicate]
    rw [show (decide (1501 ≤ 1500)) = false from by decide]
    simp only [Bool.false_and]

/-- Witness for C5: a non-string value is rejected. -/
theorem C5_witness : is_valid_firestore_id (PyVal.int 0) = false :=
  C5_is_valid_firestore_id_spec.2.1 (PyVal.int 0) (fun _ h => nomatch h)

/-- C4: the derived id is a deterministic function of exactly the
quadruple (subscription, obj_list_name, obj.id, message.id): two successful
constructions agreeing on the quadruple yield the same id, whatever the
rest of the object or message content. -/
theorem C4_id_deterministic (oln1 oln2 : PyStr) (obj1 obj2 : Node)
    (sub1 sub2 : PyStr) (msg1 msg2 : NotificationMessage)
    (n1 n2 : Notification)
    (h1 : mkNotification oln1 obj1 sub1 msg1 = Except.ok n1)
    (h2 : mkNotification oln2 obj2 sub2 msg2 = Except.ok n2)
    (hs : sub1 = sub2) (ho : oln1 = oln2) (hoid : obj1.id = obj2.id)
    (hmid : msg1.id = msg2.id) : n1.id = n2.id := by
  obtain ⟨-, -, p1, p2, hp1, hp2, hn1⟩ := mkNotification_ok_elim _ _ _ _ _ h1
  obtain ⟨-, -, q1, q2, hq1, hq2, hn2⟩ := mkNotification_ok_elim _ _ _ _ _ h2
  rw [← hoid] at hq1
  rw [← hmid] at hq2
  rw [hp1] at hq1
  rw [hp2] at hq2
  injection hq1 with e1
  injection hq2 with e2
  rw [hn1, hn2]
  show compositeId sub1 oln1 p1 p2 = compositeId sub2 oln2 q1 q2
  rw [hs, ho, e1, e2]

/-- Witness for C4: two notifications built from the same quadruple but
different summaries, descriptions, recipients and object projections get
the same id. -/
theorem C4_witness :
    ({ obj_list_name := ofStr "builds", obj := ⟨ofStr "a", ofStr "x", []⟩,
       subscription := [], message := ⟨[], ofStr "s1", [], []⟩,
       id := ofStr ":builds:YQ==:" } : Notification).id =
    ({ obj_list_name := ofStr "builds", obj := ⟨ofStr "a", [], ofStr "y"⟩,
       subscription := [], message := ⟨[ofStr "r"], [], ofStr "d", []⟩,
       id := ofStr ":builds:YQ==:" } : Notification).id :=
  C4_id_deterministic (ofStr "builds") (ofStr "builds")
    ⟨ofStr "a", ofStr "x", []⟩ ⟨ofStr "a", [], ofStr "y"⟩ [] []
    ⟨[], ofStr "s1", [], []⟩ ⟨[ofStr "r"], [], ofStr "d", []⟩ _ _
    (by decide) (by decide) rfl rfl rfl rfl

/-- C3: the composite id is injective in the quadruple: two successful
constructions whose quadruples (subscription, obj_list_name, obj.id,
message.id) differ anywhere get different ids — the separator `:` occurs in
no segment and the id-part encoding is injective. -/
theorem C3_id_injective (oln1 oln2 : PyStr) (obj1 obj2 : Node)
    (sub1 sub2 : PyStr) (msg1 msg2 : NotificationMessage)
    (n1 n2 : Notification)
    (h1 : mkNotification oln1 obj1 sub1 msg1 = Except.ok n1)
    (h2 : mkNotification oln2 obj2 sub2 msg2 = Except.ok n2)
    (hne : sub1 ≠ sub2 ∨ oln1 ≠ oln2 ∨ obj1.id ≠ obj2.id ∨ msg1.id ≠ msg2.id) :
    n1.id ≠ n2.id := by
  obtain ⟨hmem1, hsub1, p1, p2, hp1, hp2, hn1⟩ :=
    mkNotification_ok_elim _ _ _ _ _ h1
  obtain ⟨hmem2, hsub2, q1, q2, hq1, hq2, hn2⟩ :=
    mkNotification_ok_elim _ _ _ _ _ h2
  intro hid
  rw [hn1, hn2] at hid
  have hid2 : sub1 ++ 58 :: (oln1 ++ 58 :: (p1 ++ 58 :: p2)) =
      sub2 ++ 58 :: (oln2 ++ 58 :: (q1 ++ 58 :: q2)) := by
    have := hid
    simp only [compositeId, List.append_assoc, List.singleton_append] at this
    exact this
  have hns1 : (58 : Nat) ∉ sub1 :=
    fun hm => ((subscriptionFullmatch_mem sub1 hsub1 58 hm).2.2) rfl
  have hns2 : (58 : Nat) ∉ sub2 :=
    fun hm => ((subscriptionFullmatch_mem sub2 hsub2 58 hm).2.2) rfl
  obtain ⟨hseq, hrest⟩ := append_cons_cancel _ _ _ _ hns1 hns2 hid2
  have hno1 : (58 : Nat) ∉ oln1 :=
    fun hm => ((schemaTreeNames_mem_chars oln1 hmem1 58 hm).2.2) rfl
  have hno2 : (58 : Nat) ∉ oln2 :=
    fun hm => ((schemaTreeNames_mem_chars oln2 hmem2 58 hm).2.2) rfl
  obtain ⟨hoeq, hrest2⟩ := append_cons_cancel _ _ _ _ hno1 hno2 hrest
  have hnp1 : (58 : Nat) ∉ p1 :=
    fun hm => ((toIdPart_mem _ _ hp1 58 hm).2.2.1) rfl
  have hnq1 : (58 : Nat) ∉ q1 :=
    fun hm => ((toIdPart_mem _ _ hq1 58 hm).2.2.1) rfl
  obtain ⟨hpeq, hqeq⟩ := append_cons_cancel _ _ _ _ hnp1 hnq1 hrest2
  rcases hne with hne | hne | hne | hne
  · exact hne hseq
  · exact hne hoeq
  · exact hne (toIdPart_inj _ _ _ hp1 (hpeq ▸ hq1))
  · exact hne (toIdPart_inj _ _ _ hp2 (hqeq ▸ hq2))

/-- Witness for C3: notifications for objects "a" and "b" get different
ids. -/
theorem C3_witness :
    ({ obj_list_name := ofStr "builds", obj := ⟨ofStr "a", [], []⟩,
       subscription := [], message := ⟨[], [], [], []⟩,
       id := ofStr ":builds:YQ==:" } : Notification).id ≠
    ({ obj_list_name := ofStr "builds", obj := ⟨ofStr "b", [], []⟩,
       subscription := [], message := ⟨[], [], [], []⟩,
       id := ofStr ":builds:Yg==:" } : Notification).id :=
  C3_id_injective (ofStr "builds") (ofStr "builds")
    ⟨ofStr "a", [], []⟩ ⟨ofStr "b", [], []⟩ [] []
    ⟨[], [], [], []⟩ ⟨[], [], [], []⟩ _ _
    (by decide) (by decide) (Or.inr (Or.inr (Or.inl (by decide))))

/-- C7: subscription rejection boundary, with the other arguments fixed
valid: "" succeeds, "_bad" fails the regex assert, "good_1" succeeds, and
any subscription encoding to 65 UTF-8 bytes fails. -/
theorem C7_subscription_boundary :
    exOk (mkNotification (ofStr "builds") ⟨ofStr "x", [], []⟩ []
      ⟨[], [], [], []⟩) = true ∧
    mkNotification (ofStr "builds") ⟨ofStr "x", [], []⟩ (ofStr "_bad")
      ⟨[], [], [], []⟩ =
      Except.error (PyErr.assertionError Check.subscriptionRe) ∧
    exOk (mkNotification (ofStr "builds") ⟨ofStr "x", [], []⟩ (ofStr "good_1")
      ⟨[], [], [], []⟩) = true ∧
    (∀ sub bs, utf8EncodeOpt sub = some bs → bs.length = 65 →
      exOk (mkNotification (ofStr "builds") ⟨ofStr "x", [], []⟩ sub
        ⟨[], [], [], []⟩) = false) := by
  refine ⟨by decide, by decide, by decide, ?_⟩
  intro sub bs hsb hlen
  by_cases hm : subscriptionFullmatch sub = true
  · rw [mkNotification, if_neg (by decide), if_pos (by decide), if_pos hm, hsb]
    simp only []
    rw [if_neg (by omega)]
    rfl
  · rw [mkNotification, if_neg (by decide), if_pos (by decide),
      if_neg hm]
    rfl

/-- Witness for C7: a 65-byte subscription is rejected. -/
theorem C7_witness :
    exOk (mkNotification (ofStr "builds") ⟨ofStr "x", [], []⟩
      (List.replicate 65 97) ⟨[], [], [], []⟩) = false :=
  C7_subscription_boundary.2.2.2 (List.replicate 65 97) (List.replicate 65 97)
    (utf8EncodeOpt_ascii _ (fun c hc => by
      rw [List.eq_of_mem_replicate hc]
      omega))
    (by decide)

/-- C8: summary rejection boundary, with the other arguments fixed valid:
any summary containing a control character (U+0000-U+001F or U+007F) fails
the regex assert — in particular "\x01bad" — a summary of exactly 256
printable-ASCII bytes succeeds, and any summary encoding to 257 UTF-8 bytes
fails. -/
theorem C8_summary_boundary :
    mkNotificationMessage (PyVal.list []) (PyVal.str [1, 98, 97, 100])
      (PyVal.str []) (PyVal.str []) =
      Except.error (PyErr.assertionError Check.summaryRe) ∧
    (∀ sm : PyStr, (∃ c ∈ sm, c ≤ 31 ∨ c = 127) →
      mkNotificationMessage (PyVal.list []) (PyVal.str sm) (PyVal.str [])
        (PyVal.str []) =
        Except.error (PyErr.assertionError Check.summaryRe)) ∧
    (∀ sm : PyStr, (∀ c ∈ sm, 32 ≤ c ∧ c ≤ 126) → sm.length = 256 →
      mkNotificationMessage (PyVal.list []) (PyVal.str sm) (PyVal.str [])
        (PyVal.str []) = Except.ok ⟨[], sm, [], []⟩) ∧
    (∀ sm bs, utf8EncodeOpt sm = some bs → bs.length = 257 →
      exOk (mkNotificationMessage (PyVal.list []) (PyVal.str sm)
        (PyVal.str []) (PyVal.str [])) = false) := by
  refine ⟨by decide, ?_, ?_, ?_⟩
  · rintro sm ⟨c, hc, hcc⟩
    have hf : summaryFullmatch sm = false := by
      cases hall : summaryFullmatch sm with
      | false => rfl
      | true =>
        exfalso
        rw [summaryFullmatch] at hall
        have := List.all_eq_true.mp hall c hc
        simp only [Bool.not_eq_true', Bool.or_eq_false_iff,
          decide_eq_false_iff_not, beq_eq_false_iff_ne] at this
        omega
    rw [mkNotificationMessage.eq_def]
    simp only [getStrs, hf]
    rfl
  · intro sm hpr hlen
    have hf : summaryFullmatch sm = true := by
      rw [summaryFullmatch]
      refine List.all_eq_true.mpr (fun c hc => ?_)
      have := hpr c hc
      simp only [Bool.not_eq_true', Bool.or_eq_false_iff,
        decide_eq_false_iff_not, beq_eq_false_iff_ne]
      omega
    have he : utf8EncodeOpt sm = some sm :=
      utf8EncodeOpt_ascii _ (fun c hc => by
        have := hpr c hc
        omega)
    rw [mkNotificationMessage.eq_def]
    simp only [getStrs, hf, he, hlen, if_true]
    rfl
  · intro sm bs hsb hlen
    by_cases hm : summaryFullmatch sm = true
    · rw [mkNotificationMessage.eq_def]
      simp only [getStrs, hm, hsb, if_true]
      rw [if_neg (by omega)]
      rfl
    · rw [mkNotificationMessage.eq_def]
      simp only [getStrs, Bool.eq_false_iff.mpr hm]
      rfl

/-- Witness for C8: 257 bytes of "a" are rejected. -/
theorem C8_witness :
    exOk (mkNotificationMessage (PyVal.list [])
      (PyVal.str (List.replicate 257 97)) (PyVal.str []) (PyVal.str []))
      = false :=
  C8_summary_boundary.2.2.2 (List.replicate 257 97) (List.replicate 257 97)
    (utf8EncodeOpt_ascii _ (fun c hc => by
      rw [List.eq_of_mem_replicate hc]
      omega))
    (by rw [List.length_replicate])

/-- C6: `NotificationMessage` validates recipients, then summary, then
description, then id, failing with the assert (or, for a non-string id,
the AttributeError from `id.encode()`) of the first violated field, and no
instance escapes; a non-string id always fails, a string id over 256 UTF-8
bytes always fails, and on success the value holds exactly the given
fields. -/
theorem C6_message_validation_order :
    (∀ r sm d i : PyVal, (∀ l, r ≠ PyVal.list l) →
      mkNotificationMessage r sm d i =
        Except.error (PyErr.assertionError Check.recipientsIsList)) ∧
    (∀ (rl : List PyVal) (sm d i : PyVal), getStrs rl = Option.none →
      mkNotificationMessage (PyVal.list rl) sm d i =
        Except.error (PyErr.assertionError Check.recipientsAllStr)) ∧
    (∀ (rl : List PyVal) (rs : List PyStr) (sm d i : PyVal),
      getStrs rl = some rs → (∀ s, sm ≠ PyVal.str s) →
      mkNotificationMessage (PyVal.list rl) sm d i =
        Except.error (PyErr.assertionError Check.summaryIsStr)) ∧
    (∀ (rl : List PyVal) (rs : List PyStr) (sm : PyStr) (smb : List Nat)
      (d i : PyVal),
      getStrs rl = some rs → summaryFullmatch sm = true →
      utf8EncodeOpt sm = some smb → smb.length ≤ 256 →
      (∀ s, d ≠ PyVal.str s) →
      mkNotificationMessage (PyVal.list rl) (PyVal.str sm) d i =
        Except.error (PyErr.assertionError Check.descriptionIsStr)) ∧
    (∀ (rl : List PyVal) (rs : List PyStr) (sm : PyStr) (smb : List Nat)
      (d : PyStr) (i : PyVal),
      getStrs rl = some rs → summaryFullmatch sm = true →
      utf8EncodeOpt sm = some smb → smb.length ≤ 256 →
      (∀ s, i ≠ PyVal.str s) →
      mkNotificationMessage (PyVal.list rl) (PyVal.str sm) (PyVal.str d) i =
        Except.error PyErr.attributeError) ∧
    (∀ (rl : List PyVal) (rs : List PyStr) (sm : PyStr) (smb : List Nat)
      (d i : PyStr) (ib : List Nat),
      getStrs rl = some rs → summaryFullmatch sm = true →
      utf8EncodeOpt sm = some smb → smb.length ≤ 256 →
      utf8EncodeOpt i = some ib → 256 < ib.length →
      exOk (mkNotificationMessage (PyVal.list rl) (PyVal.str sm)
        (PyVal.str d) (PyVal.str i)) = false) ∧
    (∀ (rl : List PyVal) (rs : List PyStr) (sm : PyStr) (smb : List Nat)
      (d i : PyStr) (ib : List Nat),
      getStrs rl = some rs → summaryFullmatch sm = true →
      utf8EncodeOpt sm = some smb → smb.length ≤ 256 →
      utf8EncodeOpt i = some ib → ib.length ≤ 256 →
      mkNotificationMessage (PyVal.list rl) (PyVal.str sm) (PyVal.str d)
        (PyVal.str i) = Except.ok ⟨rs, sm, d, i⟩) := by
  refine ⟨?_, ?_, ?_, ?_, ?_, ?_, ?_⟩
  · intro r sm d i hr
    cases r with
    | str s => rfl
    | list l => exact absurd rfl (hr l)
    | int n => rfl
    | noneVal => rfl
  · intro rl sm d i hrl
    rw [mkNotificationMessage.eq_def]
    simp only [hrl]
  · intro rl rs sm d i hrl hsm
    rw [mkNotificationMessage.eq_def]
    simp only [hrl]
  · intro rl rs sm smb d i hrl hf he hle hd
    rw [mkNotificationMessage.eq_def]
    simp only [hrl, hf, he, hle, if_true]
  · intro rl rs sm smb d i hrl hf he hle hi
    rw [mkNotificationMessage.eq_def]
    simp only [hrl, hf, he, hle, if_true]
  · intro rl rs sm smb d i ib hrl hf he hle hi hib
    rw [mkNotificationMessage.eq_def]
    simp only [hrl, hf, he, hle, hi, if_true]
    rcases Nat.lt_or_ge 4096 ib.length with hlt | hge
    · rw [if_neg (by omega)]
      rfl
    · rw [if_pos (by omega), if_neg (by omega)]
      rfl
  · intro rl rs sm smb d i ib hrl hf he hle hi hib
    rw [mkNotificationMessage.eq_def]
    simp only [hrl, hf, he, hle, hi, if_true]
    rw [if_pos (by omega), if_pos (by omega)]

/-- Witness for C6: a non-string id (an int) makes construction fail with
the AttributeError from `id.encode()`. -/
theorem C6_witness :
    mkNotificationMessage (PyVal.list []) (PyVal.str []) (PyVal.str [])
      (PyVal.int 0) = Except.error PyErr.attributeError :=
  C6_message_validation_order.2.2.2.2.1 [] [] [] [] [] (PyVal.int 0)
    rfl rfl rfl (by decide) (fun _ h => nomatch h)

/-- C1 (amended): with all §4.3/§4.4 preconditions — message built by the
validated constructor, non-empty known list name, subscription matching its
regex in at most 64 UTF-8 bytes — and additionally obj.id encodable to at
most 810 UTF-8 bytes, the derived composite id always satisfies
`is_valid_firestore_id` and Notification construction succeeds. -/
theorem C1_amended_composite_id_valid (oln : PyStr) (obj : Node) (sub : PyStr)
    (msg : NotificationMessage) (rv sv dv iv : PyVal) (sb ob : List Nat)
    (hmsg : mkNotificationMessage rv sv dv iv = Except.ok msg)
    (hnil : oln ≠ []) (hmem : oln ∈ schemaTreeNames)
    (hsubm : subscriptionFullmatch sub = true)
    (hsb : utf8EncodeOpt sub = some sb) (hsb64 : sb.length ≤ 64)
    (hob : utf8EncodeOpt obj.id = some ob) (hob810 : ob.length ≤ 810) :
    exOk (mkNotification oln obj sub msg) = true := by
  obtain ⟨mb, hmb, hmb256⟩ := mkNotificationMessage_ok_id rv sv dv iv msg hmsg
  have hp1 : toIdPart obj.id = some (b64Encode ob) := by
    rw [toIdPart, hob]
    rfl
  have hp2 : toIdPart msg.id = some (b64Encode mb) := by
    rw [toIdPart, hmb]
    rfl
  have hsub_eq : utf8EncodeOpt sub = some sub :=
    utf8EncodeOpt_ascii sub
      (fun c hc => (subscriptionFullmatch_mem sub hsubm c hc).1)
  have hsb2 : sb = sub := by
    rw [hsb] at hsub_eq
    exact Option.some_injective _ hsub_eq
  have hsublen : sub.length ≤ 64 := by
    rw [← hsb2]
    exact hsb64
  have hval : is_valid_firestore_id
      (PyVal.str (compositeId sub oln (b64Encode ob) (b64Encode mb))) = true := by
    apply compositeId_valid
    · exact hsubm
    · exact hmem
    · exact b64Encode_mem ob
    · exact b64Encode_mem mb
    · have l1 := b64Encode_length ob
      have l2 := b64Encode_length mb
      have l3 := schemaTreeNames_len oln hmem
      omega
  rw [mkNotification_ok_of oln obj sub msg sb (b64Encode ob) (b64Encode mb)
    hnil hmem hsubm hsb hsb64 hp1 hp2 hval]
  rfl

/-- Witness for C1 (amended) at the spec's end-to-end example. -/
theorem C1_witness :
    exOk (mkNotification (ofStr "builds") ⟨ofStr "build:42", [], []⟩
      (ofStr "build_fail") ⟨[], [], [], ofStr "daily"⟩) = true :=
  C1_amended_composite_id_valid (ofStr "builds") ⟨ofStr "build:42", [], []⟩
    (ofStr "build_fail") ⟨[], [], [], ofStr "daily"⟩
    (PyVal.list []) (PyVal.str []) (PyVal.str [])
    (PyVal.str (ofStr "daily")) (ofStr "build_fail") (ofStr "build:42")
    (by decide) (by decide) (by decide) (by decide) (by decide) (by decide)
    (by decide) (by decide)

/-- Counterexample to C1 as stated: every §4.3/§4.4 precondition holds
(subscription "", known list name "builds", a message built with the
defaulted constructor), yet with an unconstrained 1197-byte obj.id the
composite id reaches 1605 UTF-8 bytes, `is_valid_firestore_id` rejects it,
and the final assertion of Notification construction fails. -/
theorem C1_counterexample :
    subscriptionFullmatch [] = true ∧
    ofStr "builds" ∈ schemaTreeNames ∧
    mkNotificationMessageDefaults (PyVal.list []) =
      Except.ok ⟨[], [], [], []⟩ ∧
    mkNotification (ofStr "builds") ⟨List.replicate 1197 97, [], []⟩ []
      ⟨[], [], [], []⟩ =
      Except.error (PyErr.assertionError Check.idFirestoreValid) := by
  refine ⟨rfl, by decide, by decide, ?_⟩
  have hob : utf8EncodeOpt (List.replicate 1197 97) =
      some (List.replicate 1197 97) :=
    utf8EncodeOpt_ascii _ (fun c hc => by
      rw [List.eq_of_mem_replicate hc]
      omega)
  have hp1 : toIdPart (List.replicate 1197 97) =
      some (b64Encode (List.replicate 1197 97)) := by
    rw [toIdPart, hob]
    rfl
  have hlen1 : (b64Encode (List.replicate 1197 97)).length = 1596 := by
    rw [b64Encode_length, List.length_replicate]
  have hcid_chars : ∀ c ∈ compositeId [] (ofStr "builds")
      (b64Encode (List.replicate 1197 97)) [], c < 128 := by
    intro c hc
    simp only [compositeId, List.append_assoc, List.mem_append, List.mem_cons,
      List.not_mem_nil, or_false, List.nil_append] at hc
    have hb : ∀ x ∈ ofStr "builds", x < 128 := by decide
    rcases hc with hc | hc | hc | hc | hc
    · omega
    · exact hb c hc
    · omega
    · exact (b64Encode_mem _ c hc).1
    · omega
  have henc : utf8EncodeOpt (compositeId [] (ofStr "builds")
      (b64Encode (List.replicate 1197 97)) []) =
      some (compositeId [] (ofStr "builds")
        (b64Encode (List.replicate 1197 97)) []) :=
    utf8EncodeOpt_ascii _ hcid_chars
  have hcl : (compositeId [] (ofStr "builds")
      (b64Encode (List.replicate 1197 97)) []).length = 1605 := by
    simp only [compositeId, List.length_append, List.length_cons,
      List.length_nil, hlen1]
    rfl
  have hval : is_valid_firestore_id (PyVal.str (compositeId [] (ofStr "builds")
      (b64Encode (List.replicate 1197 97)) [])) = false := by
    rw [is_valid_firestore_id.eq_def]
    simp only []
    rw [henc]
    simp only []
    rw [hcl]
    rw [show (decide ((1605 : Nat) ≤ 1500)) = false from by decide]
    simp only [Bool.false_and]
  exact mkNotification_invalid_of (ofStr "builds")
    ⟨List.replicate 1197 97, [], []⟩ [] ⟨[], [], [], []⟩
    [] (b64Encode (List.replicate 1197 97)) []
    (by decide) (by decide) rfl rfl (by decide) hp1 rfl hval

end Kcidb
